import Mathlib

/-!
# JaredBot balance firmware (`firmware/jaredbot_balance/src/main.cpp`)

A shallow embedding of the self-balancing robot's control core: the two-state
Kalman filter, the complementary filter, the PD law, the motor command mapper,
the calibration loop of `setup` and the timer routine `DSzhongduan`.

Modelling conventions.

* `float` / `double` values are exact rationals (`ℚ`); rounding is not modelled
  outside `Kalman_Filter32`.
  Division is Mathlib's total division on `ℚ`; results that depend on a quotient
  carry the positivity of the divisor as a hypothesis.
* `int` is the 16-bit two's-complement `int` of the firmware's 8-bit AVR target
  (the file uses `sei()`, `MsTimer2` and `NeoSWSerial`, and numbers pin A3 as 17).
  Integer results are reduced with `wrapInt`. `int16_t` has the same width, so
  the integer promotion of an `int16_t` operand does not widen it.
* `atan2` and the macro `PI` come from the C library / `Arduino.h`; they are the
  fields of `Env`.
* Every global of the file is a field of `State`; the writes to the motor driver
  pins are appended to the trace `State.out` in program order.
* `Kalman_Filter32` is `Kalman_Filter` with every operation rounded to binary32
  (`fl`); it is used where a property depends on the rounding.
-/

set_option linter.unusedVariables false

namespace JaredBot

/-- The library pieces the firmware uses but does not define: `atan2` (radians)
and the macro `PI`. -/
structure Env where
  atan2 : ℚ → ℚ → ℚ
  PI : ℚ

/-- One result of `mpu6050.getMotion6`: six `int16_t` readings. -/
structure RawImuSample where
  ax : Int
  ay : Int
  az : Int
  gx : Int
  gy : Int
  gz : Int
deriving DecidableEq, Repr

/-- A write to the motor driver: `digitalWrite(pin, level)` or
`analogWrite(pin, val)`. -/
inductive PinWrite where
  | digitalWrite (pin : Nat) (level : Int)
  | analogWrite (pin : Nat) (val : Int)
deriving DecidableEq, Repr

def LOW : Int := 0
def HIGH : Int := 1

-- TB6612 pins
def right_R1 : Nat := 8
def right_R2 : Nat := 12
def PWM_R : Nat := 10
def left_L1 : Nat := 7
def left_L2 : Nat := 6
def PWM_L : Nat := 9

/-- Smallest value of the 16-bit `int`. -/
def INT_MIN : Int := -32768

/-- Largest value of the 16-bit `int`. -/
def INT_MAX : Int := 32767

/-- Reduction of an integer result to the 16-bit two's-complement range. -/
def wrapInt (x : Int) : Int := (x + 32768) % 65536 - 32768

/-- Unary minus on an `int` operand (`-PD_pwm`, `-gx`). -/
def negInt (x : Int) : Int := wrapInt (-x)

/-- Truncation toward zero: the integer a floating-to-integer conversion
yields when it is representable. -/
def truncQ (x : ℚ) : Int := if 0 ≤ x then ⌊x⌋ else ⌈x⌉

/-- Conversion of a floating value to `int`: truncation toward zero, then
reduction to the `int` range. -/
def floatToInt (x : ℚ) : Int := wrapInt (truncQ x)

/-- The globals of `main.cpp`. `Pdot[i]` is `Pdoti`, `P[i][j]` is `Pij`; `out`
is the trace of pin writes. -/
structure State where
  ax : Int
  ay : Int
  az : Int
  gx : Int
  gy : Int
  gz : Int
  Angle : ℚ
  angle0 : ℚ
  Gyro_x : ℚ
  Gyro_y : ℚ
  Gyro_z : ℚ
  Q_angle : ℚ
  Q_gyro : ℚ
  R_angle : ℚ
  C_0 : Int
  dt : ℚ
  K1 : ℚ
  K_0 : ℚ
  K_1 : ℚ
  t_0 : ℚ
  t_1 : ℚ
  angle_err : ℚ
  q_bias : ℚ
  angle : ℚ
  angle_speed : ℚ
  angleY_one : ℚ
  Pdot0 : ℚ
  Pdot1 : ℚ
  Pdot2 : ℚ
  Pdot3 : ℚ
  P00 : ℚ
  P01 : ℚ
  P10 : ℚ
  P11 : ℚ
  PCt_0 : ℚ
  PCt_1 : ℚ
  E : ℚ
  kp : ℚ
  ki : ℚ
  kd : ℚ
  PD_pwm : Int
  pwm1 : ℚ
  pwm2 : ℚ
  out : List PinWrite

/-- The initial values of the globals (uninitialised globals are zero). -/
def initState : State where
  ax := 0
  ay := 0
  az := 0
  gx := 0
  gy := 0
  gz := 0
  Angle := 0
  angle0 := 18 / 10
  Gyro_x := 0
  Gyro_y := 0
  Gyro_z := 0
  Q_angle := 1 / 1000
  Q_gyro := 3 / 1000
  R_angle := 5 / 10
  C_0 := 1
  dt := 5 / 1000
  K1 := 5 / 100
  K_0 := 0
  K_1 := 0
  t_0 := 0
  t_1 := 0
  angle_err := 0
  q_bias := 0
  angle := 0
  angle_speed := 0
  angleY_one := 0
  Pdot0 := 0
  Pdot1 := 0
  Pdot2 := 0
  Pdot3 := 0
  P00 := 1
  P01 := 0
  P10 := 0
  P11 := 1
  PCt_0 := 0
  PCt_1 := 0
  E := 0
  kp := 34
  ki := 0
  kd := 62 / 100
  PD_pwm := 0
  pwm1 := 0
  pwm2 := 0
  out := []

/-- The read `mpu6050.getMotion6(&ax, &ay, &az, &gx, &gy, &gz)`. -/
def getMotion6 (smp : RawImuSample) (s : State) : State :=
  { s with ax := smp.ax, ay := smp.ay, az := smp.az,
           gx := smp.gx, gy := smp.gy, gz := smp.gz }

/-- Function `void Kalman_Filter(double angle_m, double gyro_m)`, statement by statement:
each local name is the global of that name after the statement, and the last
line stores them. -/
def Kalman_Filter (angle_m gyro_m : ℚ) (s : State) : State :=
  let angle := s.angle + (gyro_m - s.q_bias) * s.dt
  let angle_err := angle_m - angle
  let Pdot0 := s.Q_angle - s.P01 - s.P10
  let Pdot1 := -s.P11
  let Pdot2 := -s.P11
  let Pdot3 := s.Q_gyro
  let P00 := s.P00 + Pdot0 * s.dt
  let P01 := s.P01 + Pdot1 * s.dt
  let P10 := s.P10 + Pdot2 * s.dt
  let P11 := s.P11 + Pdot3 * s.dt
  let PCt_0 := (s.C_0 : ℚ) * P00
  let PCt_1 := (s.C_0 : ℚ) * P10
  let E := s.R_angle + (s.C_0 : ℚ) * PCt_0
  let K_0 := PCt_0 / E
  let K_1 := PCt_1 / E
  let t_0 := PCt_0
  let t_1 := (s.C_0 : ℚ) * P01
  let P00 := P00 - K_0 * t_0
  let P01 := P01 - K_0 * t_1
  let P10 := P10 - K_1 * t_0
  let P11 := P11 - K_1 * t_1
  let q_bias := s.q_bias + K_1 * angle_err
  let angle_speed := gyro_m - q_bias
  let angle := angle + K_0 * angle_err
  { s with angle := angle, angle_err := angle_err,
           Pdot0 := Pdot0, Pdot1 := Pdot1, Pdot2 := Pdot2, Pdot3 := Pdot3,
           P00 := P00, P01 := P01, P10 := P10, P11 := P11,
           PCt_0 := PCt_0, PCt_1 := PCt_1, E := E, K_0 := K_0, K_1 := K_1,
           t_0 := t_0, t_1 := t_1, q_bias := q_bias, angle_speed := angle_speed }

/-- Function `void Yiorderfilter(float angle_m, float gyro_m)`. -/
def Yiorderfilter (angle_m gyro_m : ℚ) (s : State) : State :=
  { s with angleY_one := s.K1 * angle_m + (1 - s.K1) * (s.angleY_one + gyro_m * s.dt) }

/-- Function `void angle_calculate(...)`. The parameters `dt` ... `K1` shadow the globals
and are not read by the body; the filters it calls read the globals. -/
def angle_calculate (env : Env) (ax ay az gx gy gz : Int)
    (dt Q_angle Q_gyro R_angle C_0 K1 : ℚ) (s : State) : State :=
  let Angle : ℚ := -(env.atan2 (ay : ℚ) (az : ℚ)) * (180 / env.PI)
  let Gyro_x : ℚ := ((negInt gx : Int) : ℚ) / 131
  let s := Kalman_Filter Angle Gyro_x { s with Angle := Angle, Gyro_x := Gyro_x }
  let Gyro_z : ℚ := ((negInt gz : Int) : ℚ) / 131
  let angleAx : ℚ := -(env.atan2 (ax : ℚ) (az : ℚ)) * (180 / env.PI)
  let Gyro_y : ℚ := ((negInt gy : Int) : ℚ) / 131
  Yiorderfilter angleAx Gyro_y { s with Gyro_z := Gyro_z, Gyro_y := Gyro_y }

/-- Function `void PD()`: the floating value is converted to the `int` global `PD_pwm`. -/
def PD (s : State) : State :=
  { s with PD_pwm := floatToInt (s.kp * (s.angle + s.angle0) + s.kd * s.angle_speed) }

/-- Function `void anglePWM()`, statement by statement: `pwm1`, `pwm2` are the globals
after each statement, `out` the trace of pin writes; the last line stores them. -/
def anglePWM (s : State) : State :=
  let pwm1 : ℚ := ((negInt s.PD_pwm : Int) : ℚ)
  let pwm2 : ℚ := ((negInt s.PD_pwm : Int) : ℚ)
  let pwm1 : ℚ := if pwm1 > 255 then 255 else pwm1
  let pwm1 : ℚ := if pwm1 < -255 then -255 else pwm1
  let pwm2 : ℚ := if pwm2 > 255 then 255 else pwm2
  let pwm2 : ℚ := if pwm2 < -255 then -255 else pwm2
  let pwm2 : ℚ := if s.angle > 80 ∨ s.angle < -80 then 0 else pwm2
  let pwm1 : ℚ := if s.angle > 80 ∨ s.angle < -80 then pwm2 else pwm1
  let out := s.out ++
    (if pwm2 ≥ 0 then
      [PinWrite.digitalWrite left_L1 LOW, PinWrite.digitalWrite left_L2 HIGH,
       PinWrite.analogWrite PWM_L (floatToInt pwm2)]
    else
      [PinWrite.digitalWrite left_L1 HIGH, PinWrite.digitalWrite left_L2 LOW,
       PinWrite.analogWrite PWM_L (floatToInt (-pwm2))])
  let out := out ++
    (if pwm1 ≥ 0 then
      [PinWrite.digitalWrite right_R1 LOW, PinWrite.digitalWrite right_R2 HIGH,
       PinWrite.analogWrite PWM_R (floatToInt pwm1)]
    else
      [PinWrite.digitalWrite right_R1 HIGH, PinWrite.digitalWrite right_R2 LOW,
       PinWrite.analogWrite PWM_R (floatToInt (-pwm1))])
  { s with pwm1 := pwm1, pwm2 := pwm2, out := out }

/-- Function `void DSzhongduan()`: one control cycle on the sample the IMU returns. -/
def DSzhongduan (env : Env) (smp : RawImuSample) (s : State) : State :=
  let s := getMotion6 smp s
  let s := angle_calculate env s.ax s.ay s.az s.gx s.gy s.gz
    s.dt s.Q_angle s.Q_gyro s.R_angle (s.C_0 : ℚ) s.K1 s
  let s := PD s
  anglePWM s

/-- The accelerometer-derived angle `-atan2(ay, az) * (180 / PI)` of a sample. -/
def accelAngle (env : Env) (smp : RawImuSample) : ℚ :=
  -(env.atan2 (smp.ay : ℚ) (smp.az : ℚ)) * (180 / env.PI)

/-- Body of the calibration loop of `setup`: read a sample, add its angle to
`sum`. The accumulator is the pair of the globals and the local `sum`. -/
def calibrationStep (env : Env) (acc : State × ℚ) (smp : RawImuSample) : State × ℚ :=
  let s := getMotion6 smp acc.1
  let A : ℚ := -(env.atan2 (s.ay : ℚ) (s.az : ℚ)) * (180 / env.PI)
  (s, acc.2 + A)

/-- The part of `setup` that touches the globals and the motor pins: the six
initial pin writes, the 400-sample calibration loop (`imu i` is the sample
returned by the `i`-th read) and the assignment of `angle0`. Pin modes, the
serial ports and the delays are not modelled. -/
def setup (env : Env) (imu : Nat → RawImuSample) (s : State) : State :=
  let s := { s with out := s.out ++
    [PinWrite.digitalWrite right_R1 1, PinWrite.digitalWrite right_R2 0,
     PinWrite.digitalWrite left_L1 0, PinWrite.digitalWrite left_L2 1,
     PinWrite.analogWrite PWM_R 0, PinWrite.analogWrite PWM_L 0] }
  let r := ((List.range 400).map imu).foldl (calibrationStep env) (s, 0)
  { r.1 with angle0 := r.2 / 400 }

/-- The state after `n` timer interrupts; the `i`-th one reads `imu i`. -/
def runCycles (env : Env) (imu : Nat → RawImuSample) : Nat → State → State
  | 0, s => s
  | n + 1, s => DSzhongduan env (imu n) (runCycles env imu n s)

/-- A small rational stand-in for the library (`atan2 y x` as `y / x`, `PI` as
`22 / 7`), used to run the definitions on concrete inputs. -/
def sampleEnv : Env where
  atan2 := fun y x => if x = 0 then 0 else y / x
  PI := 22 / 7

/-- A level, motionless reading: gravity on the z axis only. -/
def levelSample : RawImuSample := ⟨0, 0, 16384, 0, 0, 0⟩

/-- The angle variance after the covariance propagation of `Kalman_Filter`
(`P[0][0] += Pdot[0] * dt`), before the measurement update. -/
def propagatedVar (s : State) : ℚ :=
  s.P00 + (s.Q_angle - s.P01 - s.P10) * s.dt

/-- The state after `n` successive calls of `Kalman_Filter`; call `i` receives
the measurement pair `ms i = (angle_m, gyro_m)`. -/
def kalmanRun (ms : Nat → ℚ × ℚ) : Nat → State → State
  | 0, s => s
  | n + 1, s => Kalman_Filter (ms n).1 (ms n).2 (kalmanRun ms n s)

/-- Two states hold the same covariance `P` and the same filter parameters
`Q_angle`, `Q_gyro`, `R_angle`, `C_0`, `dt`. -/
def sameCov (s1 s2 : State) : Prop :=
  s1.P00 = s2.P00 ∧ s1.P01 = s2.P01 ∧ s1.P10 = s2.P10 ∧ s1.P11 = s2.P11 ∧
  s1.Q_angle = s2.Q_angle ∧ s1.Q_gyro = s2.Q_gyro ∧ s1.R_angle = s2.R_angle ∧
  s1.C_0 = s2.C_0 ∧ s1.dt = s2.dt

/-- The initial orientation estimate (`angle = 0`, `gyro_bias = 0`,
`P = identity`) with trim offset `angle0 = 0` and the configured gains and
filter parameters that the control path reads. -/
def atInitialOrientation (s : State) : Prop :=
  s.angle = 0 ∧ s.q_bias = 0 ∧ s.P00 = 1 ∧ s.P01 = 0 ∧ s.P10 = 0 ∧ s.P11 = 1 ∧
  s.angle0 = 0 ∧ s.Q_angle = 1 / 1000 ∧ s.R_angle = 1 / 2 ∧ s.C_0 = 1 ∧
  s.dt = 5 / 1000 ∧ s.kp = 34 ∧ s.kd = 62 / 100

/-- A reading whose accelerometer-derived angle is 10 degrees under
`sampleEnv` (`-(ay / az) * (180 / (22 / 7)) = 10`), with gyro reading
`gx = -1310`, a rate of 10 degrees per second. -/
def stepSample : RawImuSample := ⟨0, -11, 63, -1310, 0, 0⟩

/-! ## General two-state Kalman filter (specification side) -/

/-- The covariance `P` of a state as a 2×2 matrix. -/
def covP (s : State) : Matrix (Fin 2) (Fin 2) ℚ :=
  Matrix.of ![![s.P00, s.P01], ![s.P10, s.P11]]

/-- The array `Pdot` of a state as a 2×2 matrix, row by row. -/
def covPdot (s : State) : Matrix (Fin 2) (Fin 2) ℚ :=
  Matrix.of ![![s.Pdot0, s.Pdot1], ![s.Pdot2, s.Pdot3]]

/-- The system matrix `A = [[0, -1], [0, 0]]` (angle rate is minus the bias). -/
def sysA : Matrix (Fin 2) (Fin 2) ℚ := Matrix.of ![![0, -1], ![0, 0]]

/-- The process noise `Q = diag(Q_angle, Q_gyro)`. -/
def noiseQ (s : State) : Matrix (Fin 2) (Fin 2) ℚ :=
  Matrix.of ![![s.Q_angle, 0], ![0, s.Q_gyro]]

/-- The observation row `H = [C_0, 0]`. -/
def obsH (s : State) : Matrix (Fin 1) (Fin 2) ℚ := Matrix.of ![![(s.C_0 : ℚ), 0]]

/-- General filter, continuous-time covariance derivative `A P + P Aᵀ + Q`. -/
def generalPdot (A Q P : Matrix (Fin 2) (Fin 2) ℚ) : Matrix (Fin 2) (Fin 2) ℚ :=
  A * P + P * A.transpose + Q

/-- General filter, one forward-Euler step of size `dt`:
`P + dt * (A P + P Aᵀ + Q)`. -/
def generalPropagate (A Q P : Matrix (Fin 2) (Fin 2) ℚ) (dt : ℚ) :
    Matrix (Fin 2) (Fin 2) ℚ :=
  P + dt • generalPdot A Q P

/-- General filter, innovation variance `H P Hᵀ + R`. -/
def generalInnovation (H : Matrix (Fin 1) (Fin 2) ℚ) (P : Matrix (Fin 2) (Fin 2) ℚ)
    (R : ℚ) : ℚ :=
  (H * P * H.transpose) 0 0 + R

/-- General filter, gain vector `P Hᵀ / (H P Hᵀ + R)`. -/
def generalGain (H : Matrix (Fin 1) (Fin 2) ℚ) (P : Matrix (Fin 2) (Fin 2) ℚ)
    (R : ℚ) : Matrix (Fin 2) (Fin 1) ℚ :=
  Matrix.of fun i j => (P * H.transpose) i j / generalInnovation H P R

/-- General filter, covariance update `P - K (H P)`. -/
def generalUpdate (H : Matrix (Fin 1) (Fin 2) ℚ) (P : Matrix (Fin 2) (Fin 2) ℚ)
    (K : Matrix (Fin 2) (Fin 1) ℚ) : Matrix (Fin 2) (Fin 2) ℚ :=
  P - K * (H * P)

/-! ## Covariance trajectory from the initial identity (proof device) -/

/-- The configured filter parameters: `Q_angle = 0.001`, `Q_gyro = 0.003`,
`R_angle = 0.5`, `C_0 = 1`, `dt = 0.005`. -/
def configured (s : State) : Prop :=
  s.Q_angle = 1 / 1000 ∧ s.Q_gyro = 3 / 1000 ∧ s.R_angle = 1 / 2 ∧ s.C_0 = 1 ∧
  s.dt = 5 / 1000

/-- The covariance side of the state before the first control cycle: the
configured parameters and `P = identity` (the initial values of the globals,
which `setup` leaves unchanged). -/
def identityStart (s : State) : Prop :=
  configured s ∧ s.P00 = 1 ∧ s.P01 = 0 ∧ s.P10 = 0 ∧ s.P11 = 1

/-- Rounding to the nearest integer, ties to the even one. -/
def roundNE (y : ℚ) : Int :=
  if y - ⌊y⌋ < 1 / 2 then ⌊y⌋
  else if 1 / 2 < y - ⌊y⌋ then ⌊y⌋ + 1
  else if ⌊y⌋ % 2 = 0 then ⌊y⌋ else ⌊y⌋ + 1

/-- Floor of the binary logarithm of `n ≥ 1`, by halving at most `fuel`
times. -/
def log2Fuel : Nat → Nat → Nat
  | 0, _ => 0
  | fuel + 1, n => if n < 2 then 0 else log2Fuel fuel (n / 2) + 1

/-- The binary exponent `e` of a non-zero `x`: `2 ^ e ≤ |x| < 2 ^ (e + 1)`
(numerator and denominator below `2 ^ 300`). -/
def binExp (x : ℚ) : Int :=
  if (2 : ℚ) ^ ((log2Fuel 300 x.num.natAbs : Int) - (log2Fuel 300 x.den : Int)) ≤ |x| then
    (log2Fuel 300 x.num.natAbs : Int) - (log2Fuel 300 x.den : Int)
  else (log2Fuel 300 x.num.natAbs : Int) - (log2Fuel 300 x.den : Int) - 1

/-- The binary32 value nearest to `x` (24-bit significand, ties to even). The
exponent range is not modelled: the values met here lie in the normal range. -/
def fl (x : ℚ) : ℚ :=
  if x = 0 then 0
  else (roundNE (x / (2 : ℚ) ^ (binExp x - 23)) : ℚ) * (2 : ℚ) ^ (binExp x - 23)

lemma wrapInt_of_range (x : Int) (hlo : INT_MIN ≤ x) (hhi : x ≤ INT_MAX) :
    wrapInt x = x := by
  unfold INT_MIN at hlo
  unfold INT_MAX at hhi
  unfold wrapInt
  omega

lemma negInt_of_range (x : Int) (hlo : INT_MIN < x) (hhi : x ≤ INT_MAX) :
    negInt x = -x := by
  unfold INT_MIN at hlo
  unfold INT_MAX at hhi
  unfold negInt wrapInt
  omega

lemma negInt_INT_MIN : negInt INT_MIN = INT_MIN := by decide

/-! ## Motor command mapper -/

/-- The duty cycles `anglePWM` stores, as a function of the negated control
output `m` and the angle. -/
lemma anglePWM_pwm (s : State) :
    (anglePWM s).pwm2 =
        (if s.angle > 80 ∨ s.angle < -80 then 0
         else if ((negInt s.PD_pwm : Int) : ℚ) > 255 then 255
         else if ((negInt s.PD_pwm : Int) : ℚ) < -255 then -255
         else ((negInt s.PD_pwm : Int) : ℚ)) ∧
    (anglePWM s).pwm1 = (anglePWM s).pwm2 := by
  simp only [anglePWM]
  constructor
  · split_ifs <;> first | rfl | linarith
  · split_ifs <;> rfl

/-- Conversion of an integer-valued magnitude in the `int` range is exact. -/
lemma floatToInt_intCast (z : Int) (hlo : INT_MIN ≤ z) (hhi : z ≤ INT_MAX) :
    floatToInt (z : ℚ) = z := by
  have h : truncQ (z : ℚ) = z := by
    unfold truncQ
    split_ifs
    · exact Int.floor_intCast z
    · exact Int.ceil_intCast z
  rw [floatToInt, h]
  exact wrapInt_of_range z hlo hhi

/-- The final duty cycle is an integer between -255 and 255. -/
lemma anglePWM_pwm_int (s : State) :
    ∃ z : Int, -255 ≤ z ∧ z ≤ 255 ∧ (anglePWM s).pwm2 = (z : ℚ) ∧
      (anglePWM s).pwm1 = (z : ℚ) := by
  obtain ⟨a2, a1⟩ := anglePWM_pwm s
  rw [a1, a2]
  split_ifs with h1 h2 h3
  · exact ⟨0, by decide, by decide, by norm_num, by norm_num⟩
  · exact ⟨255, by decide, by decide, by norm_num, by norm_num⟩
  · exact ⟨-255, by decide, by decide, by norm_num, by norm_num⟩
  · refine ⟨negInt s.PD_pwm, ?_, ?_, rfl, rfl⟩
    · have : (-255 : ℚ) ≤ ((negInt s.PD_pwm : Int) : ℚ) := not_lt.mp h3
      exact_mod_cast this
    · have : ((negInt s.PD_pwm : Int) : ℚ) ≤ 255 := not_lt.mp h2
      exact_mod_cast this

/-- C1. Fall cutoff: whenever the estimated angle is above 80 or below -80,
`anglePWM` leaves both duty cycles at exactly 0, whatever `PD_pwm` is, and the
six pin writes it performs carry magnitude 0 for both wheels. -/
theorem C1_fall_cutoff (s : State) (h : s.angle > 80 ∨ s.angle < -80) :
    (anglePWM s).pwm1 = 0 ∧ (anglePWM s).pwm2 = 0 ∧
    (anglePWM s).out = s.out ++
      [PinWrite.digitalWrite left_L1 LOW, PinWrite.digitalWrite left_L2 HIGH,
       PinWrite.analogWrite PWM_L 0,
       PinWrite.digitalWrite right_R1 LOW, PinWrite.digitalWrite right_R2 HIGH,
       PinWrite.analogWrite PWM_R 0] := by
  have hz : floatToInt 0 = 0 := by simp [floatToInt, truncQ, wrapInt]
  simp [anglePWM, h, hz]

/-- Witness of C1: a fallen robot (angle 81) with a full-scale control output. -/
theorem C1_fall_cutoff_witness :
    (anglePWM { initState with angle := 81, PD_pwm := 30000 }).pwm1 = 0 ∧
    (anglePWM { initState with angle := 81, PD_pwm := 30000 }).pwm2 = 0 ∧
    (anglePWM { initState with angle := 81, PD_pwm := 30000 }).out =
      [PinWrite.digitalWrite left_L1 LOW, PinWrite.digitalWrite left_L2 HIGH,
       PinWrite.analogWrite PWM_L 0,
       PinWrite.digitalWrite right_R1 LOW, PinWrite.digitalWrite right_R2 HIGH,
       PinWrite.analogWrite PWM_R 0] :=
  C1_fall_cutoff { initState with angle := 81, PD_pwm := 30000 }
    (Or.inl (by norm_num))

/-- C3. Symmetry: for a control output `c` with `-255 ≤ c ≤ 255` and an angle in
`[-80, 80]`, `anglePWM` stores `pwm1 = pwm2 = -c` exactly. -/
theorem C3_symmetry (s : State)
    (hc : -255 ≤ s.PD_pwm ∧ s.PD_pwm ≤ 255)
    (ha : -80 ≤ s.angle ∧ s.angle ≤ 80) :
    (anglePWM s).pwm1 = -(s.PD_pwm : ℚ) ∧ (anglePWM s).pwm2 = -(s.PD_pwm : ℚ) := by
  obtain ⟨h2, h1⟩ := anglePWM_pwm s
  have hn : negInt s.PD_pwm = -s.PD_pwm :=
    negInt_of_range s.PD_pwm (by unfold INT_MIN; omega) (by unfold INT_MAX; omega)
  have hang : ¬ (s.angle > 80 ∨ s.angle < -80) := by
    rintro (h | h) <;> linarith [ha.1, ha.2]
  have hq1 : ((-s.PD_pwm : Int) : ℚ) ≤ 255 := by exact_mod_cast (by omega : -s.PD_pwm ≤ 255)
  have hq2 : (-255 : ℚ) ≤ ((-s.PD_pwm : Int) : ℚ) := by
    exact_mod_cast (by omega : -255 ≤ -s.PD_pwm)
  have key : (anglePWM s).pwm2 = -(s.PD_pwm : ℚ) := by
    rw [h2, hn, if_neg hang, if_neg (not_lt.mpr hq1), if_neg (not_lt.mpr hq2)]
    push_cast
    rfl
  exact ⟨h1.trans key, key⟩

/-- Witness of C3: control output 100 at angle 10 gives duty cycles -100. -/
theorem C3_symmetry_witness :
    (anglePWM { initState with angle := 10, PD_pwm := 100 }).pwm1 = -((100 : Int) : ℚ) ∧
    (anglePWM { initState with angle := 10, PD_pwm := 100 }).pwm2 = -((100 : Int) : ℚ) :=
  C3_symmetry { initState with angle := 10, PD_pwm := 100 }
    ⟨by decide, by decide⟩ ⟨by norm_num, by norm_num⟩

/-! ## Balance controller -/

/-- C4, the claim at a concrete state: with the configured gains, `angle = 0`,
`angle0 = 0` and `angle_speed = 1` the law evaluates to `0.62`, while `PD`
stores the `int` 0. -/
theorem C4_PD_truncates :
    ({ initState with angle0 := 0, angle_speed := 1 } : State).kp = 34 ∧
    ({ initState with angle0 := 0, angle_speed := 1 } : State).kd = 62 / 100 ∧
    (PD { initState with angle0 := 0, angle_speed := 1 }).PD_pwm = 0 ∧
    ((PD { initState with angle0 := 0, angle_speed := 1 }).PD_pwm : ℚ) ≠
      ({ initState with angle0 := 0, angle_speed := 1 } : State).kp *
        (({ initState with angle0 := 0, angle_speed := 1 } : State).angle +
         ({ initState with angle0 := 0, angle_speed := 1 } : State).angle0) +
      ({ initState with angle0 := 0, angle_speed := 1 } : State).kd *
        ({ initState with angle0 := 0, angle_speed := 1 } : State).angle_speed := by
  have hfl : (⌊(31 / 50 : ℚ)⌋ : Int) = 0 := by
    rw [Int.floor_eq_iff]
    norm_num
  have hv : PD { initState with angle0 := 0, angle_speed := 1 } =
      { initState with angle0 := 0, angle_speed := 1, PD_pwm := 0 } := by
    simp only [PD, initState, floatToInt, truncQ]
    norm_num [hfl, wrapInt]
  rw [hv]
  norm_num [initState]

/-- C4 as amended. With the gains `kp = 34`, `kd = 0.62`, `PD` stores the value
`kp * (angle + angle0) + kd * angle_speed` truncated toward zero, whenever that
integer fits the `int` range; the stored output is determined by the current
`angle`, `angle0` and `angle_speed` alone (the previous output, `ki` and every
other global are irrelevant), and `PD` changes nothing but `PD_pwm`. -/
theorem C4_PD_law (s : State) (hkp : s.kp = 34) (hkd : s.kd = 62 / 100)
    (hfit : INT_MIN ≤ truncQ (34 * (s.angle + s.angle0) + 62 / 100 * s.angle_speed) ∧
            truncQ (34 * (s.angle + s.angle0) + 62 / 100 * s.angle_speed) ≤ INT_MAX) :
    (PD s).PD_pwm = truncQ (34 * (s.angle + s.angle0) + 62 / 100 * s.angle_speed) ∧
    (∀ s2 : State, s2.kp = 34 → s2.kd = 62 / 100 → s2.angle = s.angle →
        s2.angle0 = s.angle0 → s2.angle_speed = s.angle_speed →
        (PD s2).PD_pwm = (PD s).PD_pwm) ∧
    PD s = { s with PD_pwm := (PD s).PD_pwm } := by
  refine ⟨?_, ?_, rfl⟩
  · simp only [PD, floatToInt, hkp, hkd]
    exact wrapInt_of_range _ hfit.1 hfit.2
  · intro s2 h1 h2 h3 h4 h5
    simp only [PD, hkp, hkd, h1, h2, h3, h4, h5]

/-- Witness of C4: at the initial state (`angle0 = 1.8`, at rest) the law gives
`61.2` and is in range. -/
theorem C4_PD_law_witness :
    (PD initState).PD_pwm = truncQ (34 * (initState.angle + initState.angle0) +
        62 / 100 * initState.angle_speed) ∧
    (∀ s2 : State, s2.kp = 34 → s2.kd = 62 / 100 → s2.angle = initState.angle →
        s2.angle0 = initState.angle0 → s2.angle_speed = initState.angle_speed →
        (PD s2).PD_pwm = (PD initState).PD_pwm) ∧
    PD initState = { initState with PD_pwm := (PD initState).PD_pwm } := by
  have hfl : (⌊(306 / 5 : ℚ)⌋ : Int) = 61 := by
    rw [Int.floor_eq_iff]
    norm_num
  have hv : truncQ (34 * (initState.angle + initState.angle0) +
      62 / 100 * initState.angle_speed) = 61 := by
    simp only [initState, truncQ]
    norm_num [hfl]
  exact C4_PD_law initState (by norm_num [initState]) (by norm_num [initState])
    (by rw [hv]; decide)

/-! ## Kalman filter -/

/-- The gains and the corrected estimate of one `Kalman_Filter` call, written
from its statements: `p` is the propagated `P[0][0]`, `E` the divisor. -/
lemma Kalman_Filter_gains (angle_m gyro_m : ℚ) (s : State) :
    (Kalman_Filter angle_m gyro_m s).E =
        s.R_angle + (s.C_0 : ℚ) * ((s.C_0 : ℚ) * propagatedVar s) ∧
    (Kalman_Filter angle_m gyro_m s).K_0 =
        (s.C_0 : ℚ) * propagatedVar s / (Kalman_Filter angle_m gyro_m s).E ∧
    (Kalman_Filter angle_m gyro_m s).K_1 =
        (s.C_0 : ℚ) * (s.P10 + -s.P11 * s.dt) / (Kalman_Filter angle_m gyro_m s).E :=
  ⟨rfl, rfl, rfl⟩

/-- The correction step of `Kalman_Filter`, for every prior state and every
measurement pair: with `angle_pred = angle + (gyro_m - q_bias) * dt` and
`angle_err = angle_m - angle_pred`, the call stores
`q_bias + K_1 * angle_err`, `gyro_m - q_bias'` and
`angle_pred + K_0 * angle_err`, with the gains of that call. -/
lemma Kalman_Filter_update (angle_m gyro_m : ℚ) (s : State) :
    (Kalman_Filter angle_m gyro_m s).angle_err =
        angle_m - (s.angle + (gyro_m - s.q_bias) * s.dt) ∧
    (Kalman_Filter angle_m gyro_m s).q_bias =
        s.q_bias + (Kalman_Filter angle_m gyro_m s).K_1 *
          (angle_m - (s.angle + (gyro_m - s.q_bias) * s.dt)) ∧
    (Kalman_Filter angle_m gyro_m s).angle_speed =
        gyro_m - (Kalman_Filter angle_m gyro_m s).q_bias ∧
    (Kalman_Filter angle_m gyro_m s).angle =
        (s.angle + (gyro_m - s.q_bias) * s.dt) +
          (Kalman_Filter angle_m gyro_m s).K_0 *
            (angle_m - (s.angle + (gyro_m - s.q_bias) * s.dt)) :=
  ⟨rfl, rfl, rfl, rfl⟩

/-- What `angle_calculate` hands to `Kalman_Filter`: the accelerometer angle
and the rate `Gyro_x`, the machine negation of `gx` divided by 131. -/
lemma angle_calculate_feeds (env : Env) (ax ay az gx gy gz : Int)
    (dt Q_angle Q_gyro R_angle C_0 K1 : ℚ) (s : State) :
    (angle_calculate env ax ay az gx gy gz dt Q_angle Q_gyro R_angle C_0 K1 s).Gyro_x =
        ((negInt gx : Int) : ℚ) / 131 ∧
    (angle_calculate env ax ay az gx gy gz dt Q_angle Q_gyro R_angle C_0 K1 s).angle =
        (Kalman_Filter (-(env.atan2 (ay : ℚ) (az : ℚ)) * (180 / env.PI))
          (((negInt gx : Int) : ℚ) / 131) s).angle ∧
    (angle_calculate env ax ay az gx gy gz dt Q_angle Q_gyro R_angle C_0 K1 s).angle_speed =
        (Kalman_Filter (-(env.atan2 (ay : ℚ) (az : ℚ)) * (180 / env.PI))
          (((negInt gx : Int) : ℚ) / 131) s).angle_speed ∧
    (angle_calculate env ax ay az gx gy gz dt Q_angle Q_gyro R_angle C_0 K1 s).q_bias =
        (Kalman_Filter (-(env.atan2 (ay : ℚ) (az : ℚ)) * (180 / env.PI))
          (((negInt gx : Int) : ℚ) / 131) s).q_bias :=
  ⟨rfl, rfl, rfl, rfl⟩

/-- For every gyro reading other than `INT_MIN` the rate fed to the filter is
`-gx / 131`. -/
lemma angle_calculate_rate_of_gt_INT_MIN (env : Env) (ax ay az gx gy gz : Int)
    (dt Q_angle Q_gyro R_angle C_0 K1 : ℚ) (s : State)
    (hlo : INT_MIN < gx) (hhi : gx ≤ INT_MAX) :
    (angle_calculate env ax ay az gx gy gz dt Q_angle Q_gyro R_angle C_0 K1 s).Gyro_x =
        -(gx : ℚ) / 131 := by
  rw [(angle_calculate_feeds env ax ay az gx gy gz dt Q_angle Q_gyro R_angle C_0 K1 s).1,
    negInt_of_range gx hlo hhi]
  push_cast
  rfl

/-- C6, the code at the gyro reading `gx = -32768` (level accelerometer, initial
state): `-gx` overflows, the rate handed to `Kalman_Filter` is `-32768 / 131`
and not `-gx / 131 = 32768 / 131`, and the resulting `angle_speed` is negative,
where the filter fed `32768 / 131` gives a positive one. -/
theorem C6_rate_at_INT_MIN :
    (angle_calculate sampleEnv 0 0 16384 (-32768) 0 0 initState.dt initState.Q_angle
        initState.Q_gyro initState.R_angle 1 initState.K1 initState).Gyro_x
      = -(32768 / 131) ∧
    (angle_calculate sampleEnv 0 0 16384 (-32768) 0 0 initState.dt initState.Q_angle
        initState.Q_gyro initState.R_angle 1 initState.K1 initState).angle_speed
      = (Kalman_Filter 0 (-(32768 / 131)) initState).angle_speed ∧
    (Kalman_Filter 0 (-(32768 / 131)) initState).angle_speed < 0 ∧
    0 < (Kalman_Filter 0 (-((-32768 : Int) : ℚ) / 131) initState).angle_speed := by
  have hn : negInt (-32768) = -32768 := by decide
  obtain ⟨h1, -, h3, -⟩ := angle_calculate_feeds sampleEnv 0 0 16384 (-32768) 0 0
    initState.dt initState.Q_angle initState.Q_gyro initState.R_angle 1 initState.K1 initState
  refine ⟨?_, ?_, ?_, ?_⟩
  · rw [h1, hn]; norm_num
  · rw [h3, hn]; norm_num [sampleEnv]
  · norm_num [Kalman_Filter, initState]
  · norm_num [Kalman_Filter, initState]

/-! ## Complementary filter -/

/-- For every `gy` other than `INT_MIN`, `angle_calculate` stores
`K1 * angleAx + (1 - K1) * (angleY_one + (-gy / 131) * dt)` with
`angleAx = -atan2(ax, az) * (180 / PI)` and the globals `K1`, `dt`. -/
lemma angleY_one_of_gt_INT_MIN (env : Env) (ax ay az gx gy gz : Int)
    (dt Q_angle Q_gyro R_angle C_0 K1 : ℚ) (s : State)
    (hlo : INT_MIN < gy) (hhi : gy ≤ INT_MAX) :
    (angle_calculate env ax ay az gx gy gz dt Q_angle Q_gyro R_angle C_0 K1 s).angleY_one =
      s.K1 * (-(env.atan2 (ax : ℚ) (az : ℚ)) * (180 / env.PI)) +
        (1 - s.K1) * (s.angleY_one + -(gy : ℚ) / 131 * s.dt) := by
  have h : (angle_calculate env ax ay az gx gy gz dt Q_angle Q_gyro R_angle C_0 K1 s).angleY_one =
      s.K1 * (-(env.atan2 (ax : ℚ) (az : ℚ)) * (180 / env.PI)) +
        (1 - s.K1) * (s.angleY_one + ((negInt gy : Int) : ℚ) / 131 * s.dt) := rfl
  rw [h, negInt_of_range gy hlo hhi]
  push_cast
  rfl

/-- C9, the code at the gyro reading `gy = -32768` (level accelerometer, initial
state, `K1 = 0.05`, `dt = 0.005`): `-gy` overflows and `angleY_one` becomes
`0.95 * (-32768 / 131) * 0.005 < 0`, while the stated formula with
`gyro_y_rate = -gy / 131` gives the opposite, positive value. -/
theorem C9_angleY_one_at_INT_MIN :
    (angle_calculate sampleEnv 0 0 16384 0 (-32768) 0 initState.dt initState.Q_angle
        initState.Q_gyro initState.R_angle 1 initState.K1 initState).angleY_one
      = -(19 / 20 * (32768 / 131 * (5 / 1000))) ∧
    initState.K1 * (-(sampleEnv.atan2 0 16384) * (180 / sampleEnv.PI)) +
        (1 - initState.K1) *
          (initState.angleY_one + -((-32768 : Int) : ℚ) / 131 * initState.dt)
      = 19 / 20 * (32768 / 131 * (5 / 1000)) ∧
    (angle_calculate sampleEnv 0 0 16384 0 (-32768) 0 initState.dt initState.Q_angle
        initState.Q_gyro initState.R_angle 1 initState.K1 initState).angleY_one
      ≠ initState.K1 * (-(sampleEnv.atan2 0 16384) * (180 / sampleEnv.PI)) +
        (1 - initState.K1) *
          (initState.angleY_one + -((-32768 : Int) : ℚ) / 131 * initState.dt) := by
  have hn : negInt (-32768) = -32768 := by decide
  have h : (angle_calculate sampleEnv 0 0 16384 0 (-32768) 0 initState.dt initState.Q_angle
        initState.Q_gyro initState.R_angle 1 initState.K1 initState).angleY_one =
      initState.K1 * (-(sampleEnv.atan2 ((0 : Int) : ℚ) ((16384 : Int) : ℚ)) *
          (180 / sampleEnv.PI)) +
        (1 - initState.K1) *
          (initState.angleY_one + ((negInt (-32768) : Int) : ℚ) / 131 * initState.dt) := rfl
  rw [h, hn]
  norm_num [initState, sampleEnv]

/-! ## Calibration -/

/-- The local `sum` after the calibration loop has run over the samples `l`. -/
lemma foldl_calibrationStep_snd (env : Env) (l : List RawImuSample) (acc : State × ℚ) :
    (l.foldl (calibrationStep env) acc).2 = acc.2 + (l.map (accelAngle env)).sum := by
  induction l generalizing acc with
  | nil => simp
  | cons smp l ih =>
    rw [List.foldl_cons, ih, List.map_cons, List.sum_cons]
    simp only [calibrationStep, getMotion6, accelAngle]
    ring

/-- C7. Calibration averaging: after `setup` has read the 400 samples
`imu 0 .. imu 399`, `angle0` is the sum of the 400 accelerometer-derived angles
`-atan2(ay_i, az_i) * (180 / PI)` divided by 400, whatever the globals held
before (the initial `angle0 = 1.8` included); a run whose samples agree on `ay`
and `az` only (other accelerometer and all gyro readings arbitrary) stores the
same `angle0`. -/
theorem C7_calibration_mean (env : Env) (imu : Nat → RawImuSample) (s : State) :
    (setup env imu s).angle0 =
        ((List.range 400).map (fun i => accelAngle env (imu i))).sum / 400 ∧
    ∀ (imu2 : Nat → RawImuSample) (s2 : State),
      (∀ i, i < 400 → (imu2 i).ay = (imu i).ay ∧ (imu2 i).az = (imu i).az) →
      (setup env imu2 s2).angle0 = (setup env imu s).angle0 := by
  have key : ∀ (f : Nat → RawImuSample) (t : State), (setup env f t).angle0 =
      ((List.range 400).map (fun i => accelAngle env (f i))).sum / 400 := by
    intro f t
    simp only [setup]
    rw [foldl_calibrationStep_snd, List.map_map]
    simp only [zero_add]
    rfl
  refine ⟨key imu s, ?_⟩
  intro imu2 s2 h
  rw [key, key]
  congr 2
  apply List.map_congr_left
  intro i hi
  obtain ⟨h1, h2⟩ := h i (List.mem_range.mp hi)
  simp only [accelAngle, h1, h2]

/-! ## Control cycle -/

/-- One cycle on a level, motionless reading keeps a zero estimate at zero. -/
lemma DSzhongduan_level (env : Env) (g : Int) (smp : RawImuSample) (s : State)
    (hat : env.atan2 0 (g : ℚ) = 0)
    (hgx : smp.gx = 0) (hay : smp.ay = 0) (haz : smp.az = g)
    (h0 : s.angle = 0 ∧ s.q_bias = 0) :
    (DSzhongduan env smp s).angle = 0 ∧ (DSzhongduan env smp s).q_bias = 0 ∧
    (DSzhongduan env smp s).angle_speed = 0 := by
  have hn : negInt 0 = 0 := by decide
  have hA : -(env.atan2 ((0 : Int) : ℚ) ((g : Int) : ℚ)) * (180 / env.PI) = 0 := by
    rw [Int.cast_zero, hat]; ring
  have hk : (DSzhongduan env smp s).angle =
        (Kalman_Filter (-(env.atan2 ((smp.ay : Int) : ℚ) ((smp.az : Int) : ℚ)) * (180 / env.PI))
          (((negInt smp.gx : Int) : ℚ) / 131) s).angle ∧
      (DSzhongduan env smp s).q_bias =
        (Kalman_Filter (-(env.atan2 ((smp.ay : Int) : ℚ) ((smp.az : Int) : ℚ)) * (180 / env.PI))
          (((negInt smp.gx : Int) : ℚ) / 131) s).q_bias ∧
      (DSzhongduan env smp s).angle_speed =
        (Kalman_Filter (-(env.atan2 ((smp.ay : Int) : ℚ) ((smp.az : Int) : ℚ)) * (180 / env.PI))
          (((negInt smp.gx : Int) : ℚ) / 131) s).angle_speed := ⟨rfl, rfl, rfl⟩
  obtain ⟨e1, e2, e3, e4⟩ := Kalman_Filter_update 0 0 s
  rw [hk.1, hk.2.1, hk.2.2, hgx, hay, haz, hn, hA, Int.cast_zero, zero_div, e4, e3, e2]
  rw [h0.1, h0.2]
  refine ⟨by ring, by ring, by ring⟩

/-- C8. Zero input: from any state with `angle = 0`, `angle_speed = 0` and
`gyro_bias = 0` (the initial state in particular), if every cycle reads
`gx = 0` and the accelerometer vector `(0, 0, g)` with `g > 0` (for which
`atan2(0, g) = 0`), then after every number `n` of cycles `angle = 0`,
`angle_speed = 0` and `gyro_bias = 0`. -/
theorem C8_zero_input (env : Env) (g : Int) (imu : Nat → RawImuSample) (s : State)
    (hg : 0 < g) (hat : env.atan2 0 (g : ℚ) = 0)
    (himu : ∀ i, (imu i).gx = 0 ∧ (imu i).ax = 0 ∧ (imu i).ay = 0 ∧ (imu i).az = g)
    (h0 : s.angle = 0 ∧ s.angle_speed = 0 ∧ s.q_bias = 0) (n : Nat) :
    (runCycles env imu n s).angle = 0 ∧ (runCycles env imu n s).angle_speed = 0 ∧
    (runCycles env imu n s).q_bias = 0 := by
  induction n with
  | zero => exact h0
  | succ n ih =>
    obtain ⟨hgx, -, hay, haz⟩ := himu n
    obtain ⟨r1, r2, r3⟩ := DSzhongduan_level env g (imu n) (runCycles env imu n s) hat
      hgx hay haz ⟨ih.1, ih.2.2⟩
    exact ⟨r1, r3, r2⟩

/-- Witness of C8: a thousand cycles from the initial state on the level
reading `(0, 0, 16384)`. -/
theorem C8_zero_input_witness :
    (runCycles sampleEnv (fun _ => levelSample) 1000 initState).angle = 0 ∧
    (runCycles sampleEnv (fun _ => levelSample) 1000 initState).angle_speed = 0 ∧
    (runCycles sampleEnv (fun _ => levelSample) 1000 initState).q_bias = 0 :=
  C8_zero_input sampleEnv 16384 (fun _ => levelSample) initState (by decide)
    (by norm_num [sampleEnv]) (fun _ => ⟨rfl, rfl, rfl, rfl⟩) ⟨rfl, rfl, rfl⟩ 1000

/-- C10. The secondary axis never feeds control: two runs of one control cycle
whose starting states differ at most in `angleY_one` and whose samples agree
on `ay`, `az` and `gx` (`ax`, `gy`, `gz` arbitrary) end with the same `angle`,
`angle_speed`, `gyro_bias`, covariance `P`, control output `PD_pwm` and duty
cycles `pwm1`, `pwm2` (and the same pin writes). -/
theorem C10_secondary_axis_isolated (env : Env) (s : State) (y : ℚ)
    (smp1 smp2 : RawImuSample)
    (hay : smp1.ay = smp2.ay) (haz : smp1.az = smp2.az) (hgx : smp1.gx = smp2.gx) :
    (DSzhongduan env smp1 s).angle =
      (DSzhongduan env smp2 { s with angleY_one := y }).angle ∧
    (DSzhongduan env smp1 s).angle_speed =
      (DSzhongduan env smp2 { s with angleY_one := y }).angle_speed ∧
    (DSzhongduan env smp1 s).q_bias =
      (DSzhongduan env smp2 { s with angleY_one := y }).q_bias ∧
    (DSzhongduan env smp1 s).P00 = (DSzhongduan env smp2 { s with angleY_one := y }).P00 ∧
    (DSzhongduan env smp1 s).P01 = (DSzhongduan env smp2 { s with angleY_one := y }).P01 ∧
    (DSzhongduan env smp1 s).P10 = (DSzhongduan env smp2 { s with angleY_one := y }).P10 ∧
    (DSzhongduan env smp1 s).P11 = (DSzhongduan env smp2 { s with angleY_one := y }).P11 ∧
    (DSzhongduan env smp1 s).PD_pwm =
      (DSzhongduan env smp2 { s with angleY_one := y }).PD_pwm ∧
    (DSzhongduan env smp1 s).pwm1 = (DSzhongduan env smp2 { s with angleY_one := y }).pwm1 ∧
    (DSzhongduan env smp1 s).pwm2 = (DSzhongduan env smp2 { s with angleY_one := y }).pwm2 ∧
    (DSzhongduan env smp1 s).out = (DSzhongduan env smp2 { s with angleY_one := y }).out := by
  simp only [DSzhongduan, getMotion6, angle_calculate, Yiorderfilter, Kalman_Filter, PD,
    anglePWM, hay, haz, hgx, and_self]

/-- Witness of C10: from the initial state, a level sample against one with
different `ax`, `gy`, `gz` and a different prior `angleY_one`. -/
theorem C10_secondary_axis_isolated_witness :
    (DSzhongduan sampleEnv ⟨0, 100, 16384, 50, 0, 0⟩ initState).angle =
      (DSzhongduan sampleEnv ⟨900, 100, 16384, 50, -700, 33⟩
        { initState with angleY_one := 12 }).angle ∧
    (DSzhongduan sampleEnv ⟨0, 100, 16384, 50, 0, 0⟩ initState).pwm1 =
      (DSzhongduan sampleEnv ⟨900, 100, 16384, 50, -700, 33⟩
        { initState with angleY_one := 12 }).pwm1 :=
  have h := C10_secondary_axis_isolated sampleEnv initState 12
    ⟨0, 100, 16384, 50, 0, 0⟩ ⟨900, 100, 16384, 50, -700, 33⟩ rfl rfl rfl
  ⟨h.1, h.2.2.2.2.2.2.2.2.1⟩

/-- C12. Trim offset and configuration are read-only after calibration: one
full control cycle `DSzhongduan` leaves `angle0`, the gains `kp`, `ki`, `kd`
and the filter parameters `Q_angle`, `Q_gyro`, `R_angle`, `C_0`, `dt`, `K1`
unchanged, for every state and every sample. -/
theorem C12_configuration_frame (env : Env) (smp : RawImuSample) (s : State) :
    (DSzhongduan env smp s).angle0 = s.angle0 ∧
    (DSzhongduan env smp s).kp = s.kp ∧
    (DSzhongduan env smp s).ki = s.ki ∧
    (DSzhongduan env smp s).kd = s.kd ∧
    (DSzhongduan env smp s).Q_angle = s.Q_angle ∧
    (DSzhongduan env smp s).Q_gyro = s.Q_gyro ∧
    (DSzhongduan env smp s).R_angle = s.R_angle ∧
    (DSzhongduan env smp s).C_0 = s.C_0 ∧
    (DSzhongduan env smp s).dt = s.dt ∧
    (DSzhongduan env smp s).K1 = s.K1 :=
  ⟨rfl, rfl, rfl, rfl, rfl, rfl, rfl, rfl, rfl, rfl⟩

/-! ## Covariance propagation and update -/

/-- C14, the claim at concrete priors: `P = identity` and `P = [[1, 0], [0, 2]]`
agree on both off-diagonal entries and on `Q_angle`, `Q_gyro`, yet
`Kalman_Filter` computes `Pdot[1] = -1` for the first and `-2` for the second
(`Pdot[1] = Pdot[2] = -P[1][1]`). -/
theorem C14_Pdot_reads_P11 :
    initState.P01 = ({ initState with P11 := 2 } : State).P01 ∧
    initState.P10 = ({ initState with P11 := 2 } : State).P10 ∧
    initState.Q_angle = ({ initState with P11 := 2 } : State).Q_angle ∧
    initState.Q_gyro = ({ initState with P11 := 2 } : State).Q_gyro ∧
    (Kalman_Filter 0 0 initState).Pdot1 = -1 ∧
    (Kalman_Filter 0 0 { initState with P11 := 2 }).Pdot1 = -2 ∧
    (Kalman_Filter 0 0 initState).Pdot1 ≠
      (Kalman_Filter 0 0 { initState with P11 := 2 }).Pdot1 := by
  refine ⟨rfl, rfl, rfl, rfl, ?_, ?_, ?_⟩ <;> norm_num [Kalman_Filter, initState]

/-- C14 as amended. The derivative `Pdot` computed in `Kalman_Filter` is
determined by `Q_angle`, `Q_gyro`, the off-diagonal terms `P[0][1]`, `P[1][0]`
and the diagonal term `P[1][1]` of the prior: two priors that agree on these
(whatever their `P[0][0]`, estimates and measurements) get the same four
entries, namely `Q_angle - P[0][1] - P[1][0]`, `-P[1][1]`, `-P[1][1]`,
`Q_gyro`. -/
theorem C14_Pdot_inputs (s1 s2 : State) (am1 gm1 am2 gm2 : ℚ)
    (h01 : s1.P01 = s2.P01) (h10 : s1.P10 = s2.P10) (h11 : s1.P11 = s2.P11)
    (hQa : s1.Q_angle = s2.Q_angle) (hQg : s1.Q_gyro = s2.Q_gyro) :
    (Kalman_Filter am1 gm1 s1).Pdot0 = (Kalman_Filter am2 gm2 s2).Pdot0 ∧
    (Kalman_Filter am1 gm1 s1).Pdot1 = (Kalman_Filter am2 gm2 s2).Pdot1 ∧
    (Kalman_Filter am1 gm1 s1).Pdot2 = (Kalman_Filter am2 gm2 s2).Pdot2 ∧
    (Kalman_Filter am1 gm1 s1).Pdot3 = (Kalman_Filter am2 gm2 s2).Pdot3 ∧
    (Kalman_Filter am1 gm1 s1).Pdot0 = s1.Q_angle - s1.P01 - s1.P10 ∧
    (Kalman_Filter am1 gm1 s1).Pdot1 = -s1.P11 ∧
    (Kalman_Filter am1 gm1 s1).Pdot2 = -s1.P11 ∧
    (Kalman_Filter am1 gm1 s1).Pdot3 = s1.Q_gyro := by
  refine ⟨?_, ?_, ?_, ?_, rfl, rfl, rfl, rfl⟩
  · show s1.Q_angle - s1.P01 - s1.P10 = s2.Q_angle - s2.P01 - s2.P10
    rw [h01, h10, hQa]
  · show -s1.P11 = -s2.P11
    rw [h11]
  · show -s1.P11 = -s2.P11
    rw [h11]
  · exact hQg

/-- Witness of C14: the identity prior against one with a different `P[0][0]`
and different measurements. -/
theorem C14_Pdot_inputs_witness :
    (Kalman_Filter 0 0 initState).Pdot0 =
      (Kalman_Filter 3 7 { initState with P00 := 5 }).Pdot0 ∧
    (Kalman_Filter 0 0 initState).Pdot1 =
      (Kalman_Filter 3 7 { initState with P00 := 5 }).Pdot1 ∧
    (Kalman_Filter 0 0 initState).Pdot2 =
      (Kalman_Filter 3 7 { initState with P00 := 5 }).Pdot2 ∧
    (Kalman_Filter 0 0 initState).Pdot3 =
      (Kalman_Filter 3 7 { initState with P00 := 5 }).Pdot3 ∧
    (Kalman_Filter 0 0 initState).Pdot0 =
      initState.Q_angle - initState.P01 - initState.P10 ∧
    (Kalman_Filter 0 0 initState).Pdot1 = -initState.P11 ∧
    (Kalman_Filter 0 0 initState).Pdot2 = -initState.P11 ∧
    (Kalman_Filter 0 0 initState).Pdot3 = initState.Q_gyro :=
  C14_Pdot_inputs initState { initState with P00 := 5 } 0 0 3 7 rfl rfl rfl rfl rfl

/-- The covariance stored by one `Kalman_Filter` call, entry by entry, in terms
of the propagated entries and the gains of that call. -/
lemma Kalman_Filter_cov (angle_m gyro_m : ℚ) (s : State) :
    (Kalman_Filter angle_m gyro_m s).P00 =
      propagatedVar s - (Kalman_Filter angle_m gyro_m s).K_0 *
        ((s.C_0 : ℚ) * propagatedVar s) ∧
    (Kalman_Filter angle_m gyro_m s).P01 =
      (s.P01 + -s.P11 * s.dt) - (Kalman_Filter angle_m gyro_m s).K_0 *
        ((s.C_0 : ℚ) * (s.P01 + -s.P11 * s.dt)) ∧
    (Kalman_Filter angle_m gyro_m s).P10 =
      (s.P10 + -s.P11 * s.dt) - (Kalman_Filter angle_m gyro_m s).K_1 *
        ((s.C_0 : ℚ) * propagatedVar s) ∧
    (Kalman_Filter angle_m gyro_m s).P11 =
      (s.P11 + s.Q_gyro * s.dt) - (Kalman_Filter angle_m gyro_m s).K_1 *
        ((s.C_0 : ℚ) * (s.P01 + -s.P11 * s.dt)) :=
  ⟨rfl, rfl, rfl, rfl⟩

/-- The covariance after a control cycle is the one `Kalman_Filter` stores. -/
lemma DSzhongduan_cov (env : Env) (smp : RawImuSample) (s : State) :
    (DSzhongduan env smp s).P01 =
      (Kalman_Filter (accelAngle env smp) (((negInt smp.gx : Int) : ℚ) / 131) s).P01 ∧
    (DSzhongduan env smp s).P10 =
      (Kalman_Filter (accelAngle env smp) (((negInt smp.gx : Int) : ℚ) / 131) s).P10 :=
  ⟨rfl, rfl⟩

/-- One call maps states with the same covariance and parameters to states
with the same covariance and parameters, and computes the same gains. -/
lemma sameCov_step (s1 s2 : State) (a1 g1 a2 g2 : ℚ) (h : sameCov s1 s2) :
    sameCov (Kalman_Filter a1 g1 s1) (Kalman_Filter a2 g2 s2) ∧
    (Kalman_Filter a1 g1 s1).K_0 = (Kalman_Filter a2 g2 s2).K_0 ∧
    (Kalman_Filter a1 g1 s1).K_1 = (Kalman_Filter a2 g2 s2).K_1 := by
  obtain ⟨h00, h01, h10, h11, hQa, hQg, hR, hC, hdt⟩ := h
  simp only [sameCov, Kalman_Filter, h00, h01, h10, h11, hQa, hQg, hR, hC, hdt, and_self]

/-- C18. The covariance and the gains are independent of the measurements: two
runs of `Kalman_Filter` calls that start from the same `P` with the same
parameters hold the same `P` after every number `n` of calls and compute the
same `K_0`, `K_1` in every call, whatever their measurement sequences and
their starting `angle`, `gyro_bias` (and other globals). -/
theorem C18_gains_measurement_independent (ms1 ms2 : Nat → ℚ × ℚ) (s1 s2 : State)
    (h : sameCov s1 s2) (n : Nat) :
    (kalmanRun ms1 n s1).P00 = (kalmanRun ms2 n s2).P00 ∧
    (kalmanRun ms1 n s1).P01 = (kalmanRun ms2 n s2).P01 ∧
    (kalmanRun ms1 n s1).P10 = (kalmanRun ms2 n s2).P10 ∧
    (kalmanRun ms1 n s1).P11 = (kalmanRun ms2 n s2).P11 ∧
    (kalmanRun ms1 (n + 1) s1).K_0 = (kalmanRun ms2 (n + 1) s2).K_0 ∧
    (kalmanRun ms1 (n + 1) s1).K_1 = (kalmanRun ms2 (n + 1) s2).K_1 := by
  have inv : ∀ k, sameCov (kalmanRun ms1 k s1) (kalmanRun ms2 k s2) := by
    intro k
    induction k with
    | zero => exact h
    | succ k ih => exact (sameCov_step _ _ _ _ _ _ ih).1
  obtain ⟨h00, h01, h10, h11, -⟩ := inv n
  obtain ⟨-, hK0, hK1⟩ := sameCov_step _ _ (ms1 n).1 (ms1 n).2 (ms2 n).1 (ms2 n).2 (inv n)
  exact ⟨h00, h01, h10, h11, hK0, hK1⟩

/-- Witness of C18: five calls from the initial covariance, one run at rest and
one with growing measurements and a different starting estimate. -/
theorem C18_gains_measurement_independent_witness :
    (kalmanRun (fun _ => (0, 0)) 5 initState).P00 =
      (kalmanRun (fun i => ((i : ℚ), 2 * (i : ℚ))) 5
        { initState with angle := 30, q_bias := 4 }).P00 ∧
    (kalmanRun (fun _ => (0, 0)) 6 initState).K_1 =
      (kalmanRun (fun i => ((i : ℚ), 2 * (i : ℚ))) 6
        { initState with angle := 30, q_bias := 4 }).K_1 :=
  have h := C18_gains_measurement_independent (fun _ => (0, 0))
    (fun i => ((i : ℚ), 2 * (i : ℚ))) initState { initState with angle := 30, q_bias := 4 }
    ⟨rfl, rfl, rfl, rfl, rfl, rfl, rfl, rfl, rfl⟩ 5
  ⟨h.1, h.2.2.2.2.2⟩

/-- C19. The corrected angle is a blend of prediction and measurement: with
`C_0 = 1`, `R_angle > 0` and a non-negative propagated variance
`P[0][0] + (Q_angle - P[0][1] - P[1][0]) * dt`, the gain satisfies
`0 ≤ K_0 < 1` and the new `angle` lies in the closed interval between the
predicted angle `angle + (gyro_m - q_bias) * dt` and the measurement `angle_m`. -/
theorem C19_angle_blend (s : State) (angle_m gyro_m : ℚ)
    (hC : s.C_0 = 1) (hR : 0 < s.R_angle)
    (hp : 0 ≤ s.P00 + (s.Q_angle - s.P01 - s.P10) * s.dt) :
    0 ≤ (Kalman_Filter angle_m gyro_m s).K_0 ∧
    (Kalman_Filter angle_m gyro_m s).K_0 < 1 ∧
    min (s.angle + (gyro_m - s.q_bias) * s.dt) angle_m ≤
      (Kalman_Filter angle_m gyro_m s).angle ∧
    (Kalman_Filter angle_m gyro_m s).angle ≤
      max (s.angle + (gyro_m - s.q_bias) * s.dt) angle_m := by
  obtain ⟨hE, hK0, -⟩ := Kalman_Filter_gains angle_m gyro_m s
  obtain ⟨-, -, -, hang⟩ := Kalman_Filter_update angle_m gyro_m s
  have hp2 : 0 ≤ propagatedVar s := hp
  have hpos : 0 < s.R_angle + propagatedVar s := by linarith
  have hK0b : (Kalman_Filter angle_m gyro_m s).K_0 =
      propagatedVar s / (s.R_angle + propagatedVar s) := by
    rw [hK0, hE, hC]; push_cast; ring
  have h0 : 0 ≤ (Kalman_Filter angle_m gyro_m s).K_0 := by
    rw [hK0b]; exact div_nonneg hp2 hpos.le
  have h1 : (Kalman_Filter angle_m gyro_m s).K_0 < 1 := by
    rw [hK0b, div_lt_one hpos]; linarith
  refine ⟨h0, h1, ?_, ?_⟩
  · rw [hang]
    rcases le_total (s.angle + (gyro_m - s.q_bias) * s.dt) angle_m with hle | hle
    · rw [min_eq_left hle]; nlinarith
    · rw [min_eq_right hle]; nlinarith
  · rw [hang]
    rcases le_total (s.angle + (gyro_m - s.q_bias) * s.dt) angle_m with hle | hle
    · rw [max_eq_right hle]; nlinarith
    · rw [max_eq_left hle]; nlinarith

/-- Witness of C19: the first call from the initial state with measurement 10
and rate 3. -/
theorem C19_angle_blend_witness :
    0 ≤ (Kalman_Filter 10 3 initState).K_0 ∧
    (Kalman_Filter 10 3 initState).K_0 < 1 ∧
    min (initState.angle + (3 - initState.q_bias) * initState.dt) 10 ≤
      (Kalman_Filter 10 3 initState).angle ∧
    (Kalman_Filter 10 3 initState).angle ≤
      max (initState.angle + (3 - initState.q_bias) * initState.dt) 10 :=
  C19_angle_blend initState 10 3 rfl (by norm_num [initState]) (by norm_num [initState])

/-- C20. The measurement update never increases the angle variance and keeps
it below the measurement noise: with `C_0 = 1`, `R_angle > 0` and a propagated
variance `p = P[0][0] + (Q_angle - P[0][1] - P[1][0]) * dt ≥ 0`, the divisor
`E = R_angle + p` is strictly positive, the new `P[0][0]` equals
`p * R_angle / (R_angle + p)`, and `0 ≤ P[0][0] ≤ p`, `P[0][0] < R_angle`. -/
theorem C20_variance_update (s : State) (angle_m gyro_m : ℚ)
    (hC : s.C_0 = 1) (hR : 0 < s.R_angle)
    (hp : 0 ≤ s.P00 + (s.Q_angle - s.P01 - s.P10) * s.dt) :
    (Kalman_Filter angle_m gyro_m s).E =
      s.R_angle + (s.P00 + (s.Q_angle - s.P01 - s.P10) * s.dt) ∧
    0 < (Kalman_Filter angle_m gyro_m s).E ∧
    (Kalman_Filter angle_m gyro_m s).P00 =
      (s.P00 + (s.Q_angle - s.P01 - s.P10) * s.dt) * s.R_angle /
        (s.R_angle + (s.P00 + (s.Q_angle - s.P01 - s.P10) * s.dt)) ∧
    0 ≤ (Kalman_Filter angle_m gyro_m s).P00 ∧
    (Kalman_Filter angle_m gyro_m s).P00 ≤ s.P00 + (s.Q_angle - s.P01 - s.P10) * s.dt ∧
    (Kalman_Filter angle_m gyro_m s).P00 < s.R_angle := by
  obtain ⟨hE, hK0, -⟩ := Kalman_Filter_gains angle_m gyro_m s
  obtain ⟨h00, -, -, -⟩ := Kalman_Filter_cov angle_m gyro_m s
  have hp2 : 0 ≤ propagatedVar s := hp
  have hpos : 0 < s.R_angle + propagatedVar s := by linarith
  have hE2 : (Kalman_Filter angle_m gyro_m s).E = s.R_angle + propagatedVar s := by
    rw [hE, hC]; push_cast; ring
  have hP : (Kalman_Filter angle_m gyro_m s).P00 =
      propagatedVar s * s.R_angle / (s.R_angle + propagatedVar s) := by
    rw [h00, hK0, hE2, hC]
    push_cast
    field_simp
    ring
  refine ⟨hE2, by rw [hE2]; exact hpos, hP, ?_, ?_, ?_⟩
  · rw [hP]; exact div_nonneg (mul_nonneg hp2 hR.le) hpos.le
  · rw [hP, div_le_iff₀ hpos]
    show propagatedVar s * s.R_angle ≤ propagatedVar s * (s.R_angle + propagatedVar s)
    nlinarith
  · rw [hP, div_lt_iff₀ hpos]
    nlinarith

/-- Witness of C20: the first call from the initial state. -/
theorem C20_variance_update_witness :
    (Kalman_Filter 0 0 initState).E = initState.R_angle +
      (initState.P00 + (initState.Q_angle - initState.P01 - initState.P10) * initState.dt) ∧
    0 < (Kalman_Filter 0 0 initState).E ∧
    (Kalman_Filter 0 0 initState).P00 =
      (initState.P00 + (initState.Q_angle - initState.P01 - initState.P10) * initState.dt) *
        initState.R_angle /
        (initState.R_angle +
          (initState.P00 + (initState.Q_angle - initState.P01 - initState.P10) * initState.dt)) ∧
    0 ≤ (Kalman_Filter 0 0 initState).P00 ∧
    (Kalman_Filter 0 0 initState).P00 ≤
      initState.P00 + (initState.Q_angle - initState.P01 - initState.P10) * initState.dt ∧
    (Kalman_Filter 0 0 initState).P00 < initState.R_angle :=
  C20_variance_update initState 0 0 rfl (by norm_num [initState]) (by norm_num [initState])

/-! ## Motor command mapper: recovery and pin writes -/

/-- The pin writes of `anglePWM` in terms of the final duty cycles. -/
lemma anglePWM_out (s : State) :
    (anglePWM s).out = (s.out ++
      (if (anglePWM s).pwm2 ≥ 0 then
        [PinWrite.digitalWrite left_L1 LOW, PinWrite.digitalWrite left_L2 HIGH,
         PinWrite.analogWrite PWM_L (floatToInt (anglePWM s).pwm2)]
      else
        [PinWrite.digitalWrite left_L1 HIGH, PinWrite.digitalWrite left_L2 LOW,
         PinWrite.analogWrite PWM_L (floatToInt (-(anglePWM s).pwm2))])) ++
      (if (anglePWM s).pwm1 ≥ 0 then
        [PinWrite.digitalWrite right_R1 LOW, PinWrite.digitalWrite right_R2 HIGH,
         PinWrite.analogWrite PWM_R (floatToInt (anglePWM s).pwm1)]
      else
        [PinWrite.digitalWrite right_R1 HIGH, PinWrite.digitalWrite right_R2 LOW,
         PinWrite.analogWrite PWM_R (floatToInt (-(anglePWM s).pwm1))]) :=
  rfl

/-- C15. Direction-plus-magnitude mapping: for every state (every control
output and angle) `anglePWM` appends exactly six pin writes, the left wheel's
three and then the right wheel's three. For each wheel the two direction
writes come first, LOW then HIGH when the final duty cycle is non-negative and
HIGH then LOW otherwise (so always opposite levels), and the third write is the
magnitude, the absolute value of the final duty cycle, an integer in 0..255. -/
theorem C15_direction_magnitude (s : State) :
    ∃ m : Int, 0 ≤ m ∧ m ≤ 255 ∧
      (m : ℚ) = |(anglePWM s).pwm2| ∧ (m : ℚ) = |(anglePWM s).pwm1| ∧
      ((m : ℚ) = (if (anglePWM s).pwm2 ≥ 0 then (anglePWM s).pwm2
                  else -(anglePWM s).pwm2)) ∧
      LOW ≠ HIGH ∧
      (anglePWM s).out = s.out ++
        [PinWrite.digitalWrite left_L1 (if (anglePWM s).pwm2 ≥ 0 then LOW else HIGH),
         PinWrite.digitalWrite left_L2 (if (anglePWM s).pwm2 ≥ 0 then HIGH else LOW),
         PinWrite.analogWrite PWM_L m,
         PinWrite.digitalWrite right_R1 (if (anglePWM s).pwm1 ≥ 0 then LOW else HIGH),
         PinWrite.digitalWrite right_R2 (if (anglePWM s).pwm1 ≥ 0 then HIGH else LOW),
         PinWrite.analogWrite PWM_R m] := by
  obtain ⟨z, hlo, hhi, e2, e1⟩ := anglePWM_pwm_int s
  rw [anglePWM_out s, e1, e2]
  by_cases hz : 0 ≤ z
  · have hq : (z : ℚ) ≥ 0 := by exact_mod_cast hz
    have hf : floatToInt (z : ℚ) = z :=
      floatToInt_intCast z (by unfold INT_MIN; omega) (by unfold INT_MAX; omega)
    refine ⟨z, hz, hhi, (abs_of_nonneg hq).symm, (abs_of_nonneg hq).symm, ?_, by decide, ?_⟩
    · rw [if_pos hq]
    · simp only [if_pos hq, hf, List.append_assoc, List.cons_append, List.nil_append]
  · have hz2 : z < 0 := not_le.mp hz
    have hq : ¬ ((z : ℚ) ≥ 0) := by
      intro h
      have : (0 : Int) ≤ z := by exact_mod_cast h
      omega
    have hq2 : (z : ℚ) < 0 := not_le.mp hq
    have hf : floatToInt (-(z : ℚ)) = -z := by
      have := floatToInt_intCast (-z) (by unfold INT_MIN; omega) (by unfold INT_MAX; omega)
      rwa [Int.cast_neg] at this
    refine ⟨-z, by omega, by omega, ?_, ?_, ?_, by decide, ?_⟩
    · rw [abs_of_neg hq2]; push_cast; rfl
    · rw [abs_of_neg hq2]; push_cast; rfl
    · rw [if_neg hq]; push_cast; rfl
    · simp only [if_neg hq, hf, List.append_assoc, List.cons_append, List.nil_append]

/-! ## Step response -/

lemma negInt_range (x : Int) : -32768 ≤ negInt x ∧ negInt x ≤ 32767 := by
  unfold negInt wrapInt
  omega

/-- The first filter call from the initial orientation: gains and corrected
estimate as functions of the measurement `a` and the rate `r`. -/
lemma Kalman_Filter_first (a r : ℚ) (s : State) (h : atInitialOrientation s) :
    (Kalman_Filter a r s).angle = r / 200 + 200001 / 300001 * (a - r / 200) ∧
    (Kalman_Filter a r s).angle_speed = r + 1000 / 300001 * (a - r / 200) := by
  obtain ⟨hang, hb, h00, h01, h10, h11, -, hQa, hR, hC, hdt, -, -⟩ := h
  obtain ⟨hE, hK0, hK1⟩ := Kalman_Filter_gains a r s
  obtain ⟨-, u2, u3, u4⟩ := Kalman_Filter_update a r s
  have hp : propagatedVar s = 200001 / 200000 := by
    simp only [propagatedVar, h00, h01, h10, hQa, hdt]
    norm_num
  have hE2 : (Kalman_Filter a r s).E = 300001 / 200000 := by
    rw [hE, hp, hR, hC]
    norm_num
  have hK0v : (Kalman_Filter a r s).K_0 = 200001 / 300001 := by
    rw [hK0, hE2, hp, hC]
    norm_num
  have hK1v : (Kalman_Filter a r s).K_1 = -(1000 / 300001) := by
    rw [hK1, hE2, h10, h11, hdt, hC]
    norm_num
  constructor
  · rw [u4, hK0v, hang, hb, hdt]
    ring
  · rw [u3, u2, hK1v, hang, hb, hdt]
    ring

/-- C16. Immediate corrective response to a step: from the initial orientation
estimate with trim offset 0, one control cycle whose accelerometer-derived
angle is 10 degrees ends, for every gyro reading `gx` (so for every rate
`r ≥ 0` a cycle can have), with a strictly positive estimated angle, a strictly
positive control output `PD_pwm` and strictly negative duty cycles `pwm1`,
`pwm2`. -/
theorem C16_step_response (env : Env) (smp : RawImuSample) (s : State)
    (h : atInitialOrientation s) (hA : accelAngle env smp = 10) :
    0 < (DSzhongduan env smp s).angle ∧ 0 < (DSzhongduan env smp s).PD_pwm ∧
    (DSzhongduan env smp s).pwm1 < 0 ∧ (DSzhongduan env smp s).pwm2 < 0 := by
  obtain ⟨hlo, hhi⟩ := negInt_range smp.gx
  have hrlo : (-32768 : ℚ) / 131 ≤ ((negInt smp.gx : Int) : ℚ) / 131 := by
    have : ((-32768 : Int) : ℚ) ≤ ((negInt smp.gx : Int) : ℚ) := by exact_mod_cast hlo
    have h2 : ((-32768 : Int) : ℚ) = -32768 := by norm_num
    rw [h2] at this
    linarith
  have hrhi : ((negInt smp.gx : Int) : ℚ) / 131 ≤ 32767 / 131 := by
    have : ((negInt smp.gx : Int) : ℚ) ≤ ((32767 : Int) : ℚ) := by exact_mod_cast hhi
    have h2 : ((32767 : Int) : ℚ) = 32767 := by norm_num
    rw [h2] at this
    linarith
  obtain ⟨f1, f2⟩ := Kalman_Filter_first 10 (((negInt smp.gx : Int) : ℚ) / 131) s h
  obtain ⟨-, -, -, -, -, -, ha0, -, -, -, -, hkp, hkd⟩ := h
  have e_angle : (DSzhongduan env smp s).angle =
      (Kalman_Filter 10 (((negInt smp.gx : Int) : ℚ) / 131) s).angle := by
    rw [← hA]; rfl
  have e_pd : (DSzhongduan env smp s).PD_pwm =
      floatToInt (s.kp * ((Kalman_Filter 10 (((negInt smp.gx : Int) : ℚ) / 131) s).angle
          + s.angle0)
        + s.kd * (Kalman_Filter 10 (((negInt smp.gx : Int) : ℚ) / 131) s).angle_speed) := by
    rw [← hA]; rfl
  obtain ⟨a2, a1⟩ := anglePWM_pwm (PD (angle_calculate env smp.ax smp.ay smp.az
      smp.gx smp.gy smp.gz s.dt s.Q_angle s.Q_gyro s.R_angle (s.C_0 : ℚ) s.K1
      (getMotion6 smp s)))
  have e_pwm2 : (DSzhongduan env smp s).pwm2 =
      (if (DSzhongduan env smp s).angle > 80 ∨ (DSzhongduan env smp s).angle < -80 then 0
       else if ((negInt (DSzhongduan env smp s).PD_pwm : Int) : ℚ) > 255 then 255
       else if ((negInt (DSzhongduan env smp s).PD_pwm : Int) : ℚ) < -255 then -255
       else ((negInt (DSzhongduan env smp s).PD_pwm : Int) : ℚ)) := a2
  have e_pwm1 : (DSzhongduan env smp s).pwm1 = (DSzhongduan env smp s).pwm2 := a1
  rw [f1, f2, hkp, hkd, ha0] at e_pd
  rw [f1] at e_angle
  generalize ((negInt smp.gx : Int) : ℚ) / 131 = r at hrlo hrhi e_angle e_pd
  -- the estimated angle
  have hApos : 0 < (DSzhongduan env smp s).angle := by rw [e_angle]; linarith
  have hAle : (DSzhongduan env smp s).angle ≤ 80 := by rw [e_angle]; linarith
  -- the control law before conversion
  have hv1 : (57 : ℚ) ≤ 34 * (r / 200 + 200001 / 300001 * (10 - r / 200) + 0) +
      62 / 100 * (r + 1000 / 300001 * (10 - r / 200)) := by linarith
  have hv2 : 34 * (r / 200 + 200001 / 300001 * (10 - r / 200) + 0) +
      62 / 100 * (r + 1000 / 300001 * (10 - r / 200)) ≤ 400 := by linarith
  generalize 34 * (r / 200 + 200001 / 300001 * (10 - r / 200) + 0) +
      62 / 100 * (r + 1000 / 300001 * (10 - r / 200)) = v at hv1 hv2 e_pd
  have htr : truncQ v = ⌊v⌋ := by
    unfold truncQ
    rw [if_pos (by linarith)]
  have hfl1 : (57 : Int) ≤ ⌊v⌋ := Int.le_floor.mpr (by exact_mod_cast hv1)
  have hfl2 : ⌊v⌋ ≤ (400 : Int) := by
    have : ((⌊v⌋ : Int) : ℚ) ≤ ((400 : Int) : ℚ) := by
      have := Int.floor_le v
      push_cast
      linarith
    exact_mod_cast this
  have hc : (DSzhongduan env smp s).PD_pwm = ⌊v⌋ := by
    rw [e_pd, floatToInt, htr]
    exact wrapInt_of_range _ (by unfold INT_MIN; omega) (by unfold INT_MAX; omega)
  have hn : negInt (DSzhongduan env smp s).PD_pwm = -⌊v⌋ := by
    rw [hc]
    exact negInt_of_range _ (by unfold INT_MIN; omega) (by unfold INT_MAX; omega)
  have hq : ((-⌊v⌋ : Int) : ℚ) ≤ -57 := by exact_mod_cast (by omega : -⌊v⌋ ≤ -57)
  have hcut : ¬ ((DSzhongduan env smp s).angle > 80 ∨ (DSzhongduan env smp s).angle < -80) := by
    rintro (h1 | h1) <;> linarith
  have hpwm2 : (DSzhongduan env smp s).pwm2 < 0 := by
    rw [e_pwm2, if_neg hcut, hn]
    split_ifs <;> linarith
  refine ⟨hApos, by rw [hc]; omega, by rw [e_pwm1]; exact hpwm2, hpwm2⟩

/-- Witness of C16: the initial state with trim offset 0 and a reading at 10
degrees rotating at 10 degrees per second. -/
theorem C16_step_response_witness :
    0 < (DSzhongduan sampleEnv stepSample { initState with angle0 := 0 }).angle ∧
    0 < (DSzhongduan sampleEnv stepSample { initState with angle0 := 0 }).PD_pwm ∧
    (DSzhongduan sampleEnv stepSample { initState with angle0 := 0 }).pwm1 < 0 ∧
    (DSzhongduan sampleEnv stepSample { initState with angle0 := 0 }).pwm2 < 0 :=
  C16_step_response sampleEnv stepSample { initState with angle0 := 0 }
    (by norm_num [atInitialOrientation, initState])
    (by norm_num [accelAngle, sampleEnv, stepSample])

/-! ## Refinement of the general filter -/

/-- C13. The hand-expanded covariance code is the general two-state filter
with forward-Euler integration: with `A = [[0, -1], [0, 0]]`,
`Q = diag(Q_angle, Q_gyro)` and `H = [C_0, 0]`, one `Kalman_Filter` call
computes `Pdot = A P + P Aᵀ + Q`, propagates to `Pp = P + dt * Pdot`, computes
the gain vector `K = Pp Hᵀ / (H Pp Hᵀ + R_angle)` (so
`K_0 = C_0 * Pp[0][0] / E`, `K_1 = C_0 * Pp[1][0] / E` with
`E = R_angle + C_0 * C_0 * Pp[0][0]`) and stores `P = Pp - K (H Pp)`, for every
prior `P` and all parameter values. -/
theorem C13_general_filter (s : State) (angle_m gyro_m : ℚ) :
    covPdot (Kalman_Filter angle_m gyro_m s) = generalPdot sysA (noiseQ s) (covP s) ∧
    (Kalman_Filter angle_m gyro_m s).E =
      generalInnovation (obsH s) (generalPropagate sysA (noiseQ s) (covP s) s.dt) s.R_angle ∧
    (Kalman_Filter angle_m gyro_m s).E = s.R_angle +
      (s.C_0 : ℚ) * (s.C_0 : ℚ) * generalPropagate sysA (noiseQ s) (covP s) s.dt 0 0 ∧
    (Kalman_Filter angle_m gyro_m s).K_0 =
      generalGain (obsH s) (generalPropagate sysA (noiseQ s) (covP s) s.dt) s.R_angle 0 0 ∧
    (Kalman_Filter angle_m gyro_m s).K_1 =
      generalGain (obsH s) (generalPropagate sysA (noiseQ s) (covP s) s.dt) s.R_angle 1 0 ∧
    (Kalman_Filter angle_m gyro_m s).K_0 =
      (s.C_0 : ℚ) * generalPropagate sysA (noiseQ s) (covP s) s.dt 0 0 /
        (Kalman_Filter angle_m gyro_m s).E ∧
    (Kalman_Filter angle_m gyro_m s).K_1 =
      (s.C_0 : ℚ) * generalPropagate sysA (noiseQ s) (covP s) s.dt 1 0 /
        (Kalman_Filter angle_m gyro_m s).E ∧
    covP (Kalman_Filter angle_m gyro_m s) =
      generalUpdate (obsH s) (generalPropagate sysA (noiseQ s) (covP s) s.dt)
        (generalGain (obsH s) (generalPropagate sysA (noiseQ s) (covP s) s.dt) s.R_angle) := by
  have hPp : generalPropagate sysA (noiseQ s) (covP s) s.dt =
      Matrix.of ![![s.P00 + (s.Q_angle - s.P01 - s.P10) * s.dt, s.P01 + -s.P11 * s.dt],
                  ![s.P10 + -s.P11 * s.dt, s.P11 + s.Q_gyro * s.dt]] := by
    ext i j
    simp only [generalPropagate, generalPdot, Matrix.add_apply, Matrix.smul_apply,
      Matrix.mul_apply, Matrix.transpose_apply, Fin.sum_univ_two, smul_eq_mul]
    fin_cases i <;> fin_cases j <;> simp [sysA, noiseQ, covP] <;> ring
  have hS : generalInnovation (obsH s) (generalPropagate sysA (noiseQ s) (covP s) s.dt)
      s.R_angle = s.R_angle + (s.C_0 : ℚ) * ((s.C_0 : ℚ) *
        (s.P00 + (s.Q_angle - s.P01 - s.P10) * s.dt)) := by
    rw [hPp]
    simp only [generalInnovation, Matrix.mul_apply, Matrix.transpose_apply, Fin.sum_univ_two]
    simp [obsH]
    ring
  have hE : (Kalman_Filter angle_m gyro_m s).E = s.R_angle + (s.C_0 : ℚ) * ((s.C_0 : ℚ) *
        (s.P00 + (s.Q_angle - s.P01 - s.P10) * s.dt)) := rfl
  have hG : ∀ i : Fin 2, generalGain (obsH s)
      (generalPropagate sysA (noiseQ s) (covP s) s.dt) s.R_angle i 0 =
      (s.C_0 : ℚ) * generalPropagate sysA (noiseQ s) (covP s) s.dt i 0 /
        (Kalman_Filter angle_m gyro_m s).E := by
    intro i
    simp only [generalGain, Matrix.of_apply]
    rw [hS, hE]
    simp only [Matrix.mul_apply, Matrix.transpose_apply, Fin.sum_univ_two]
    simp [obsH]
    ring
  have hK0 : (Kalman_Filter angle_m gyro_m s).K_0 =
      (s.C_0 : ℚ) * generalPropagate sysA (noiseQ s) (covP s) s.dt 0 0 /
        (Kalman_Filter angle_m gyro_m s).E := by
    rw [hPp]; rfl
  have hK1 : (Kalman_Filter angle_m gyro_m s).K_1 =
      (s.C_0 : ℚ) * generalPropagate sysA (noiseQ s) (covP s) s.dt 1 0 /
        (Kalman_Filter angle_m gyro_m s).E := by
    rw [hPp]; rfl
  refine ⟨?_, ?_, ?_, ?_, ?_, hK0, hK1, ?_⟩
  · ext i j
    simp only [generalPdot, Matrix.add_apply, Matrix.mul_apply, Matrix.transpose_apply,
      Fin.sum_univ_two]
    fin_cases i <;> fin_cases j <;> simp [covPdot, sysA, noiseQ, covP, Kalman_Filter]
    ring
  · rw [hS, hE]
  · rw [hPp, hE]
    simp
    ring
  · rw [hG 0, hK0]
  · rw [hG 1, hK1]
  · ext i j
    have e0 := hG 0
    have e1 := hG 1
    rw [← hK0] at e0
    rw [← hK1] at e1
    simp only [generalUpdate, Matrix.sub_apply, Matrix.mul_apply, Fin.sum_univ_two,
      Finset.univ_unique, Finset.sum_singleton, Fin.default_eq_zero, Fin.isValue]
    fin_cases i <;> fin_cases j <;>
      simp only [Fin.zero_eta, Fin.mk_one, Fin.isValue, e0, e1] <;>
      rw [hPp] <;> simp [covP, obsH, Kalman_Filter]

/-! ## Covariance trajectory from the initial identity -/

/-- The calibration loop leaves the covariance and the filter parameters as
they were. -/
lemma foldl_calibrationStep_cov (env : Env) (l : List RawImuSample) (acc : State × ℚ) :
    (l.foldl (calibrationStep env) acc).1.P00 = acc.1.P00 ∧
    (l.foldl (calibrationStep env) acc).1.P01 = acc.1.P01 ∧
    (l.foldl (calibrationStep env) acc).1.P10 = acc.1.P10 ∧
    (l.foldl (calibrationStep env) acc).1.P11 = acc.1.P11 ∧
    (l.foldl (calibrationStep env) acc).1.Q_angle = acc.1.Q_angle ∧
    (l.foldl (calibrationStep env) acc).1.Q_gyro = acc.1.Q_gyro ∧
    (l.foldl (calibrationStep env) acc).1.R_angle = acc.1.R_angle ∧
    (l.foldl (calibrationStep env) acc).1.C_0 = acc.1.C_0 ∧
    (l.foldl (calibrationStep env) acc).1.dt = acc.1.dt := by
  induction l generalizing acc with
  | nil => exact ⟨rfl, rfl, rfl, rfl, rfl, rfl, rfl, rfl, rfl⟩
  | cons smp l ih =>
    rw [List.foldl_cons]
    exact ih (calibrationStep env acc smp)

/-- The routine `setup` leaves the covariance and the filter parameters as they
were: the initial globals start the covariance at the identity before and
after it. -/
lemma identityStart_setup (env : Env) (imu : Nat → RawImuSample) (s : State)
    (h : identityStart s) : identityStart (setup env imu s) := by
  obtain ⟨⟨c1, c2, c3, c4, c5⟩, p00, p01, p10, p11⟩ := h
  have k : (setup env imu s).P00 = s.P00 ∧ (setup env imu s).P01 = s.P01 ∧
      (setup env imu s).P10 = s.P10 ∧ (setup env imu s).P11 = s.P11 ∧
      (setup env imu s).Q_angle = s.Q_angle ∧ (setup env imu s).Q_gyro = s.Q_gyro ∧
      (setup env imu s).R_angle = s.R_angle ∧ (setup env imu s).C_0 = s.C_0 ∧
      (setup env imu s).dt = s.dt := by
    simp only [setup]
    exact foldl_calibrationStep_cov env _ _
  obtain ⟨k1, k2, k3, k4, k5, k6, k7, k8, k9⟩ := k
  unfold identityStart configured
  rw [k1, k2, k3, k4, k5, k6, k7, k8, k9]
  exact ⟨⟨c1, c2, c3, c4, c5⟩, p00, p01, p10, p11⟩

lemma identityStart_initState : identityStart initState := by
  norm_num [identityStart, configured, initState]

/-- The rounding `fl` on two initialisers: `0.001f` is `0x3a83126f` and `0.005f`
is `0x3ba3d70a`. -/
lemma fl_initialisers :
    fl (1 / 1000) = 8589935 / 2 ^ 33 ∧ fl (5 / 1000) = 10737418 / 2 ^ 31 := by
  decide!

end JaredBot
